import Mathlib

/-!
Verification of the rangeTools interval library.

The development shallowly embeds the `Range` class of `range.py` and the
`Ranges` collection of `ranges.py` over the rational numbers (the element
type is generic "NumberLike" in the source; plain numeric elements are
modelled exactly by `ℚ`, with the default `elementFactory` acting as the
identity on numbers).  Python exceptions are modelled by `Except PyErr`,
Python generators by explicit (fuel-bounded where the source loop is
`while`-driven) list producers.
-/

namespace RangeTools

/-- Python exceptions raised by the embedded code paths. -/
inductive PyErr where
  /-- `raise NotImplementedError(...)` -/
  | notImplementedError : PyErr
  /-- `raise IndexError(...)` -/
  | indexError : PyErr
deriving DecidableEq

/-- Embedding of the `Range` object state: `_low`, `_high`, the two
inclusivity flags, and the optional `_step` and `_center` overrides
(`None` ⇒ `none`). -/
structure RangeQ where
  low : ℚ
  high : ℚ
  lowInclusive : Bool
  highInclusive : Bool
  step : Option ℚ
  center : Option ℚ
deriving DecidableEq

/-- The `low` property setter (range.py lines 368-377):
`self._low = low; if self._low > self._high: self._high = self._low`. -/
def setLow (r : RangeQ) (x : ℚ) : RangeQ :=
  let r1 : RangeQ := { r with low := x }
  if r1.low > r1.high then { r1 with high := r1.low } else r1

/-- The `high` property setter (range.py lines 387-397):
`self._high = high; if self._high < self._low: self._low = self._high`. -/
def setHigh (r : RangeQ) (y : ℚ) : RangeQ :=
  let r1 : RangeQ := { r with high := y }
  if r1.high < r1.low then { r1 with low := r1.high } else r1

/-- Constructor `Range(low, high, step, center, lowInclusive, highInclusive)`
on scalar arguments: `assign` runs `self.low = low` (no `_high` exists yet,
so no collapse) and then `self.high = high` through the `high` setter. -/
def mkRange (low high : ℚ) (lowInclusive highInclusive : Bool)
    (step center : Option ℚ) : RangeQ :=
  setHigh
    { low := low, high := low, lowInclusive := lowInclusive,
      highInclusive := highInclusive, step := step, center := center }
    high

/-- Constructor `Range(low, high)` with the default keyword arguments
(`lowInclusive=True`, `highInclusive=False`, no step, no center). -/
def mkRangeD (low high : ℚ) : RangeQ :=
  mkRange low high true false none none

/-- The `span` property: `self.high - self.low`. -/
def span (r : RangeQ) : ℚ := r.high - r.low

/-- The `step` property getter: `elementFactory(1)` when `_step is None`. -/
def stepVal (r : RangeQ) : ℚ := r.step.getD 1

/-- Method `Range.contains` on a scalar argument:
`other >= self.low and other <= self.high`. -/
def containsScalar (r : RangeQ) (x : ℚ) : Bool :=
  decide (x ≥ r.low) && decide (x ≤ r.high)

/-- Method `Range.overlaps(other)` with the source's exact branch structure:
an `if self.low >= other.low` testing `self.low <= other.high` inside,
an `elif other.high >= self.high`, else `False`. -/
def overlaps (r other : RangeQ) : Bool :=
  if r.low ≥ other.low then
    if r.low ≤ other.high then true else false
  else if other.high ≥ r.high then true
  else false

/-- Operator `Range.__lt__` on another `Range`: `self.high < other.low`. -/
def ltRange (r other : RangeQ) : Bool :=
  decide (r.high < other.low)

/-- Operator `Range.__eq__` on another `Range`: the code returns
`self.high < other.low`. -/
def eqRange (r other : RangeQ) : Bool :=
  decide (r.high < other.low)

/-- C1: the `low <= high` invariant is maintained by construction and by
both property setters, and an assignment past the opposite bound collapses
the range to a degenerate point at the assigned value: `r.low = x` with
`x > r.high` forces `high = x`, and `r.high = y` with `y < r.low` forces
`low = y`. -/
theorem setters_preserve_invariant_and_collapse (r : RangeQ) (x y l h : ℚ)
    (li hi : Bool) (st c : Option ℚ) :
    (setLow r x).low ≤ (setLow r x).high
    ∧ (setHigh r y).low ≤ (setHigh r y).high
    ∧ (mkRange l h li hi st c).low ≤ (mkRange l h li hi st c).high
    ∧ (x > r.high → (setLow r x).high = x)
    ∧ (y < r.low → (setHigh r y).low = y) := by
  refine ⟨?_, ?_, ?_, ?_, ?_⟩
  · simp only [setLow]
    split <;> simp_all
  · simp only [setHigh]
    split <;> simp_all
  · simp only [mkRange, setHigh]
    split <;> simp_all
  · intro hx
    simp only [setLow]
    split <;> simp_all
  · intro hy
    simp only [setHigh]
    split <;> simp_all

/-- Witness for C1 at a concrete range: `Range(0,5)` with `low := 10`
collapses to high `10`, and with `high := -3` collapses to low `-3`. -/
theorem setters_preserve_invariant_and_collapse_witness :
    (setLow (mkRangeD 0 5) 10).high = 10
    ∧ (setHigh (mkRangeD 0 5) (-3)).low = -3 := by
  have h := setters_preserve_invariant_and_collapse (mkRangeD 0 5)
    10 (-3) 0 5 true false none none
  exact ⟨h.2.2.2.1 (by decide), h.2.2.2.2 (by decide)⟩

/-- The `center` property getter (range.py lines 402-418): the override
`_center` when set, else `average = (low + high) / 2`. -/
def centerVal (r : RangeQ) : ℚ :=
  match r.center with
  | some c => c
  | none => (r.low + r.high) / 2

/-- Method `Range.copy()` (range.py lines 140-151): re-runs the
constructor on `self.low, self.high, self.step, self.center, ...`.  The
`step` and `center` arguments read the PROPERTY GETTERS, which return the
defaults `1` and `(low + high) / 2` when the underlying `_step`/`_center`
are `None`; `__init__` then stores those non-`None` values, so a copy
always carries materialized step and center overrides. -/
def copy (r : RangeQ) : RangeQ :=
  mkRange r.low r.high r.lowInclusive r.highInclusive
    (some (stepVal r)) (some (centerVal r))

/-- Low-bound phase of one `maximize` loop iteration (range.py lines
591-597): adopt `other.low` (and its inclusivity, via the `low` setter)
when strictly lower, OR the flags when equal. -/
def maximizeStepLow (r other : RangeQ) : RangeQ :=
  if other.low = r.low then
    { r with lowInclusive := other.lowInclusive || r.lowInclusive }
  else if other.low < r.low then
    { setLow r other.low with lowInclusive := other.lowInclusive }
  else r

/-- One full iteration of the `maximize` loop body (range.py lines
590-604): the low phase followed by the symmetric high phase. -/
def maximizeStep (r other : RangeQ) : RangeQ :=
  let r1 := maximizeStepLow r other
  if other.high = r1.high then
    { r1 with highInclusive := other.highInclusive || r1.highInclusive }
  else if other.high > r1.high then
    { setHigh r1 other.high with highInclusive := other.highInclusive }
  else r1

/-- Method `Range.maximize(otherRanges)`: fold the loop body over the others. -/
def maximize (r : RangeQ) (others : List RangeQ) : RangeQ :=
  others.foldl maximizeStep r

/-- Method `Range.maximized(otherRanges)` = `self.copy().maximize(otherRanges)`. -/
def maximized (r : RangeQ) (others : List RangeQ) : RangeQ :=
  maximize (copy r) others

/-- Low-bound phase of one `minimize` loop iteration (range.py lines
530-545).  The `Bool` component records whether the loop `break`s.
Assignments to `self.low` go through the collapsing `low` setter, exactly
as in the source. -/
def minimizeLowPhase (r other : RangeQ) : RangeQ × Bool :=
  if other.low = r.low then
    ({ r with lowInclusive := !(other.lowInclusive || r.lowInclusive) }, false)
  else if other.low > r.low then
    let r1 : RangeQ := { setLow r other.low with lowInclusive := other.lowInclusive }
    if r1.low = r1.high then
      ({ setLow r1 r1.high with lowInclusive := r1.highInclusive }, false)
    else if r1.low > r1.high then
      ({ setLow r1 r1.high with lowInclusive := false }, true)
    else (r1, false)
  else (r, false)

/-- High-bound phase of one `minimize` loop iteration (range.py lines
546-552): note the source GROWS `high` when `other.high > self.high`. -/
def minimizeHighPhase (r other : RangeQ) : RangeQ :=
  if other.high = r.high then
    { r with highInclusive := other.highInclusive || r.highInclusive }
  else if other.high > r.high then
    { setHigh r other.high with highInclusive := other.highInclusive }
  else r

/-- Method `Range.minimize(otherRanges)`: the loop with its `break`. -/
def minimize (r : RangeQ) : List RangeQ → RangeQ
  | [] => r
  | other :: rest =>
    let p := minimizeLowPhase r other
    if p.2 then p.1
    else minimize (minimizeHighPhase p.1 other) rest

/-- Method `Range.minimized(otherRanges)` = `self.copy().minimize(otherRanges)`. -/
def minimized (r : RangeQ) (others : List RangeQ) : RangeQ :=
  minimize (copy r) others

/-- Equality of ranges as intervals: same bounds and same inclusivity
flags (the observables `maximize` operates on). -/
def sameInterval (x y : RangeQ) : Prop :=
  x.low = y.low ∧ x.high = y.high
    ∧ x.lowInclusive = y.lowInclusive ∧ x.highInclusive = y.highInclusive

/-- Fields of a copy of a range satisfying the invariant: bounds and
inclusivity flags are reproduced, while step and center come back
materialized through the property getters. -/
theorem copy_fields (r : RangeQ) (h : r.low ≤ r.high) :
    copy r
      = { low := r.low, high := r.high, lowInclusive := r.lowInclusive,
          highInclusive := r.highInclusive, step := some (stepVal r),
          center := some (centerVal r) } := by
  simp only [copy, mkRange, setHigh]
  rw [if_neg (by simp only [not_lt]; exact h)]

/-- Closed form of one `maximize` step under both invariants: bounds
become the pointwise min/max and the flags follow the adopted side. -/
theorem maximizeStep_eq (r other : RangeQ) (hr : r.low ≤ r.high)
    (_hother : other.low ≤ other.high) :
    maximizeStep r other =
      { low := min r.low other.low, high := max r.high other.high,
        lowInclusive :=
          if other.low = r.low then other.lowInclusive || r.lowInclusive
          else if other.low < r.low then other.lowInclusive
          else r.lowInclusive,
        highInclusive :=
          if other.high = r.high then other.highInclusive || r.highInclusive
          else if other.high > r.high then other.highInclusive
          else r.highInclusive,
        step := r.step, center := r.center } := by
  simp only [maximizeStep, maximizeStepLow, setLow, setHigh]
  split_ifs <;> simp_all [min_def, max_def] <;>
    first
      | (exfalso; linarith)
      | (split_ifs <;> first | rfl | linarith | (constructor <;> rfl))

/-- C4, counterexample: the claimed structural idempotence
`a.maximized(a) == a` fails — `Range(0,10).maximized(Range(0,10))` goes
through `copy()`, whose `step`/`center` arguments read the property
getters, so the result carries materialized `_step = 1` and
`_center = 5` where the original has neither set.  (The two differ
observably: `tolerance` raises on the copy.) -/
theorem maximized_self_materializes_step_center :
    maximized (mkRangeD 0 10) [mkRangeD 0 10]
      = mkRange 0 10 true false (some 1) (some 5)
    ∧ maximized (mkRangeD 0 10) [mkRangeD 0 10] ≠ mkRangeD 0 10 := by
  have hc : maximized (mkRangeD 0 10) [mkRangeD 0 10]
      = mkRange 0 10 true false (some 1) (some 5) := by
    norm_num [maximized, maximize, copy, centerVal, stepVal, mkRangeD,
      mkRange, setHigh, maximizeStep, maximizeStepLow]
  refine ⟨hc, ?_⟩
  rw [hc]
  decide

/-- C4, amended: the non-mutating union `maximized` is commutative and
idempotent on the interval observables (bounds and inclusivity flags,
which is all `maximize` touches): `a.maximized(a)` agrees with `a` on
them, and `a.maximized(b)` agrees with `b.maximized(a)` (adopting the
strictly-wider side's bound and flag, OR-ing flags on ties).  Full value
equality fails only because `copy()` materializes the default step and
center. -/
theorem maximized_comm_and_idem (a b : RangeQ)
    (ha : a.low ≤ a.high) (hb : b.low ≤ b.high) :
    sameInterval (maximized a [a]) a
    ∧ sameInterval (maximized a [b]) (maximized b [a]) := by
  constructor
  · simp only [maximized, maximize, List.foldl_cons, List.foldl_nil,
      copy_fields a ha]
    simp [maximizeStep, maximizeStepLow, sameInterval]
  · simp only [maximized, maximize, List.foldl_cons, List.foldl_nil,
      copy_fields a ha, copy_fields b hb]
    have hA := maximizeStep_eq
      { low := a.low, high := a.high, lowInclusive := a.lowInclusive,
        highInclusive := a.highInclusive, step := some (stepVal a),
        center := some (centerVal a) } b ha hb
    have hB := maximizeStep_eq
      { low := b.low, high := b.high, lowInclusive := b.lowInclusive,
        highInclusive := b.highInclusive, step := some (stepVal b),
        center := some (centerVal b) } a hb ha
    rw [hA, hB]
    refine ⟨min_comm _ _, max_comm _ _, ?_, ?_⟩
    · rcases lt_trichotomy a.low b.low with h | h | h
      · simp [h, h.ne, h.ne', not_lt_of_gt h]
      · simp [h, Bool.or_comm]
      · simp [h, h.ne, h.ne', not_lt_of_gt h]
    · rcases lt_trichotomy a.high b.high with h | h | h
      · simp [h, h.ne, h.ne', not_lt_of_gt h]
      · simp [h, Bool.or_comm]
      · simp [h, h.ne, h.ne', not_lt_of_gt h]

/-- Witness for C4's amended theorem on `Range(0,5)` and `Range(3,9)`. -/
theorem maximized_comm_and_idem_witness :
    sameInterval (maximized (mkRangeD 0 5) [mkRangeD 0 5]) (mkRangeD 0 5)
    ∧ sameInterval (maximized (mkRangeD 0 5) [mkRangeD 3 9])
        (maximized (mkRangeD 3 9) [mkRangeD 0 5]) := by
  exact maximized_comm_and_idem (mkRangeD 0 5) (mkRangeD 3 9)
    (by decide) (by decide)

/-- C3, code evaluation at the failing inputs: `minimize` GROWS the high
bound to the other range's larger high instead of lowering it to the
tighter bound — `Range(0,10).minimized(Range(2,20))` comes out as the full
`[2,20]`, not the intersection `[2,10]`; and on the disjoint pair
`Range(0,5)`, `Range(10,20)` the result is `[10,20]` with
`lowInclusive = False`, not a degenerate point at the receiver's high 5.
(The `some 1`/`some 5`/`some (5/2)` step and center are the values
`copy()` materializes from the getters.) -/
theorem minimize_grows_high_and_misses_clamp :
    minimized (mkRangeD 0 10) [mkRangeD 2 20]
      = mkRange 2 20 true false (some 1) (some 5)
    ∧ minimized (mkRangeD 0 5) [mkRangeD 10 20]
        = mkRange 10 20 false false (some 1) (some (5 / 2)) := by
  constructor
  · norm_num [minimized, minimize, copy, centerVal, stepVal, mkRangeD,
      mkRange, setLow, setHigh, minimizeLowPhase, minimizeHighPhase]
  · norm_num [minimized, minimize, copy, centerVal, stepVal, mkRangeD,
      mkRange, setLow, setHigh, minimizeLowPhase, minimizeHighPhase]

/-- C2, counterexample: the default half-open `Range(0,1)` has
`highInclusive = False`, yet `contains(1)` is `True` — the code's
`contains` compares with `>=`/`<=` on both ends and ignores the
inclusivity flags, so `contains(high)` is not `highInclusive`. -/
theorem contains_ignores_highInclusive :
    containsScalar (mkRangeD 0 1) 1 = true
    ∧ (mkRangeD 0 1).highInclusive = false := by
  decide

/-- C2, amended: for every range with `low <= high`, `span = high - low`,
and scalar containment is inclusive at both bounds regardless of the
inclusivity flags: `contains(low)` and `contains(high)` are always true. -/
theorem span_and_contains_bounds (r : RangeQ) (h : r.low ≤ r.high) :
    span r = r.high - r.low
    ∧ containsScalar r r.low = true
    ∧ containsScalar r r.high = true := by
  refine ⟨rfl, ?_, ?_⟩ <;> simp [containsScalar, h, le_refl]

/-- Witness for C2's amended theorem on `Range(2,7)`. -/
theorem span_and_contains_bounds_witness :
    span (mkRangeD 2 7) = 5
    ∧ containsScalar (mkRangeD 2 7) 2 = true
    ∧ containsScalar (mkRangeD 2 7) 7 = true := by
  have h := span_and_contains_bounds (mkRangeD 2 7) (by decide)
  refine ⟨?_, h.2.1, h.2.2⟩
  rw [h.1]
  norm_num [mkRangeD, mkRange, setHigh]

/-- C5: for ranges satisfying the receiver-side invariant `a.low <= a.high`,
`overlaps(a, b)` is true exactly when `a.low >= b.low and a.low <= b.high`
holds or `b.high >= a.high` holds. -/
theorem overlaps_spec (a b : RangeQ) (h : a.low ≤ a.high) :
    overlaps a b = true
    ↔ ((a.low ≥ b.low ∧ a.low ≤ b.high) ∨ b.high ≥ a.high) := by
  simp only [overlaps]
  split_ifs with h1 h2 h3
  · exact iff_of_true rfl (Or.inl ⟨h1, h2⟩)
  · rw [not_le] at h2
    refine iff_of_false (by decide) ?_
    rintro (⟨hx, hy⟩ | hx) <;> linarith
  · exact iff_of_true rfl (Or.inr h3)
  · rw [not_le] at h1 h3
    refine iff_of_false (by decide) ?_
    rintro (⟨hx, hy⟩ | hx) <;> linarith

/-- Witness for C5: `Range(3,5)` overlaps `Range(0,4)` (its low edge 3 falls
inside `[0,4]`). -/
theorem overlaps_spec_witness :
    overlaps (mkRangeD 3 5) (mkRangeD 0 4) = true := by
  have h := overlaps_spec (mkRangeD 3 5) (mkRangeD 0 4) (by decide)
  exact h.mpr (by decide)

/-- C10: range-to-range `__eq__` evaluates `self.high < other.low`, exactly
the `__lt__` precedence test, so under the `low <= high` invariant
`a == a` is always false — equality is never reflexive for ranges. -/
theorem eq_is_lt_and_irreflexive (a b : RangeQ) (h : a.low ≤ a.high) :
    eqRange a b = ltRange a b ∧ eqRange a a = false := by
  refine ⟨rfl, ?_⟩
  simp only [eqRange, decide_eq_false_iff_not, not_lt]
  exact h

/-- Witness for C10 at a closed degenerate point range `Range(3,3)` with
both bounds inclusive: even `a == a` is false there. -/
theorem eq_is_lt_and_irreflexive_witness :
    eqRange (mkRange 3 3 true true none none) (mkRange 3 3 true true none none)
      = false := by
  exact (eq_is_lt_and_irreflexive (mkRange 3 3 true true none none)
    (mkRange 3 3 true true none none) (by decide)).2

/-- The `while current < self.high` loop of `iterateEvenly` (range.py
lines 994-997), with explicit fuel for the source's unbounded loop: each
pass yields `Range(last, current)` and advances both cursors by
`partSize`. -/
def iterateEvenlyLoop (high partSize : ℚ) : ℚ → ℚ → ℕ → List RangeQ
  | _, _, 0 => []
  | last, current, fuel + 1 =>
    if current < high then
      mkRangeD last current ::
        iterateEvenlyLoop high partSize current (current + partSize) fuel
    else []

/-- Method `Range.iterateEvenly(numParts)` (range.py lines 975-997): a degenerate
range yields itself once; otherwise `partSize = self.span / numParts`, the
cursors start at `last = self.low` and `current = partSize` (NOT
`low + partSize`), and the loop runs while `current < self.high`. -/
def iterateEvenly (r : RangeQ) (numParts : ℕ) (fuel : ℕ) : List RangeQ :=
  if r.low = r.high then [r]
  else
    iterateEvenlyLoop r.high (span r / numParts) r.low (span r / numParts) fuel

/-- C7, counterexample: `Range(0,20).iterateEvenly(5)` yields only FOUR
sub-ranges, `[0,4],[4,8],[8,12],[12,16]` — the final piece `[16,20]` is
never emitted because the loop stops as soon as `current` reaches `high`,
so the claimed "exactly numParts sub-ranges covering [0,20]" fails. -/
theorem iterateEvenly_drops_last_part :
    iterateEvenly (mkRangeD 0 20) 5 5
      = [mkRangeD 0 4, mkRangeD 4 8, mkRangeD 8 12, mkRangeD 12 16]
    ∧ (iterateEvenly (mkRangeD 0 20) 5 5).length = 4 := by
  constructor
  · norm_num [iterateEvenly, iterateEvenlyLoop, span, mkRangeD, mkRange,
      setHigh]
  · norm_num [iterateEvenly, iterateEvenlyLoop, span, mkRangeD, mkRange,
      setHigh]

/-- Closed form of the `iterateEvenly` loop: starting the cursors at
`last = m·p`, `current = (m+1)·p` against the stop bound `(m+1+d)·p`
yields exactly the `d` chunks `[(m+i)·p, (m+i+1)·p]`, for any
sufficient fuel. -/
theorem iterateEvenlyLoop_closed (p : ℚ) (hp : 0 < p) (d : ℕ) :
    ∀ (m fuel : ℕ), d ≤ fuel →
      iterateEvenlyLoop (((m : ℚ) + 1 + (d : ℚ)) * p) p ((m : ℚ) * p)
          (((m : ℚ) + 1) * p) fuel
        = (List.range d).map
            (fun (i : ℕ) => mkRangeD (((m : ℚ) + (i : ℚ)) * p)
              (((m : ℚ) + (i : ℚ) + 1) * p)) := by
  induction d with
  | zero =>
    intro m fuel _
    cases fuel with
    | zero => simp [iterateEvenlyLoop]
    | succ f =>
      simp only [iterateEvenlyLoop, Nat.cast_zero, add_zero, List.range_zero,
        List.map_nil]
      rw [if_neg (lt_irrefl _)]
  | succ d ih =>
    intro m fuel hf
    cases fuel with
    | zero => omega
    | succ f =>
      have hcast : ((d + 1 : ℕ) : ℚ) = (d : ℚ) + 1 := by push_cast; ring
      rw [hcast]
      have hlt : ((m : ℚ) + 1) * p < ((m : ℚ) + 1 + ((d : ℚ) + 1)) * p := by
        have h1 : ((m : ℚ) + 1) < ((m : ℚ) + 1 + ((d : ℚ) + 1)) := by
          have h0 : (0 : ℚ) ≤ (d : ℚ) := Nat.cast_nonneg d
          linarith
        exact mul_lt_mul_of_pos_right h1 hp
      simp only [iterateEvenlyLoop]
      rw [if_pos hlt]
      have hh : ((m : ℚ) + 1 + ((d : ℚ) + 1)) * p
          = (((m + 1 : ℕ) : ℚ) + 1 + (d : ℚ)) * p := by
        push_cast
        ring
      have hc : ((m : ℚ) + 1) * p + p = (((m + 1 : ℕ) : ℚ) + 1) * p := by
        push_cast
        ring
      have hl : ((m : ℚ) + 1) * p = ((m + 1 : ℕ) : ℚ) * p := by
        push_cast
        ring
      rw [hh, hc, hl, ih (m + 1) f (by omega)]
      rw [List.range_succ_eq_map, List.map_cons, List.map_map]
      congr 1
      · congr 1 <;> push_cast <;> ring
      · apply List.map_congr_left
        intro i _
        simp only [Function.comp_apply]
        congr 1 <;> push_cast <;> ring

/-- C7, amended: over `Range(0, n·p)` with `p > 0` and `n ≥ 1` parts,
`iterateEvenly(n)` yields exactly `n − 1` (not `n`) equal-width
sub-ranges, the i-th being `[i·p, (i+1)·p]`; they tile
`[0, (n−1)·p]` and the final piece reaching `high` is never emitted. -/
theorem iterateEvenly_partition_misses_final (n : ℕ) (p : ℚ)
    (hn : 1 ≤ n) (hp : 0 < p) :
    iterateEvenly (mkRangeD 0 ((n : ℚ) * p)) n n
      = (List.range (n - 1)).map
          (fun (i : ℕ) => mkRangeD ((i : ℚ) * p) (((i : ℚ) + 1) * p))
    ∧ (iterateEvenly (mkRangeD 0 ((n : ℚ) * p)) n n).length = n - 1 := by
  have hnp : (0 : ℚ) < (n : ℚ) * p := by
    have h1 : (1 : ℚ) ≤ (n : ℚ) := by exact_mod_cast hn
    nlinarith
  have hr : mkRangeD 0 ((n : ℚ) * p)
      = { low := 0, high := (n : ℚ) * p, lowInclusive := true,
          highInclusive := false, step := none, center := none } := by
    simp only [mkRangeD, mkRange, setHigh]
    rw [if_neg (by simp only [not_lt]; linarith)]
  have key : iterateEvenly (mkRangeD 0 ((n : ℚ) * p)) n n
      = (List.range (n - 1)).map
          (fun (i : ℕ) => mkRangeD ((i : ℚ) * p) (((i : ℚ) + 1) * p)) := by
    rw [hr]
    simp only [iterateEvenly, span]
    rw [if_neg (ne_of_lt hnp)]
    have hspan : ((n : ℚ) * p - 0) / (n : ℚ) = p := by
      have hn0 : (n : ℚ) ≠ 0 := Nat.cast_ne_zero.mpr (by omega)
      field_simp
    rw [hspan]
    have hloop := iterateEvenlyLoop_closed p hp (n - 1) 0 n (by omega)
    have hcast : ((n - 1 : ℕ) : ℚ) = (n : ℚ) - 1 := by
      rw [Nat.cast_sub hn, Nat.cast_one]
    rw [hcast] at hloop
    simp only [Nat.cast_zero, zero_add, one_mul, zero_mul] at hloop
    have hhigh : (1 + ((n : ℚ) - 1)) * p = (n : ℚ) * p := by ring
    rw [hhigh] at hloop
    exact hloop
  refine ⟨key, ?_⟩
  rw [key]
  simp

/-- Witness for C7's amended theorem at `n = 5`, `p = 4`
(`Range(0,20).iterateEvenly(5)` has 4 parts `[i·4, (i+1)·4]`). -/
theorem iterateEvenly_partition_misses_final_witness :
    iterateEvenly (mkRangeD 0 ((5 : ℚ) * 4)) 5 5
      = (List.range 4).map
          (fun (i : ℕ) => mkRangeD ((i : ℚ) * 4) (((i : ℚ) + 1) * 4))
    ∧ (iterateEvenly (mkRangeD 0 ((5 : ℚ) * 4)) 5 5).length = 4 := by
  exact iterateEvenly_partition_misses_final 5 4 (by norm_num) (by norm_num)

/-- The `split` remainder policy name "remainder_section". -/
def remainderSectionName : String := "remainder_section"

/-- The `split` remainder policy name "section_stretch" (the default). -/
def sectionStretchName : String := "section_stretch"

/-- The `split` remainder policy name "section_shrink". -/
def sectionShrinkName : String := "section_shrink"

/-- The `split` remainder policy name "section_stretch_shrink". -/
def sectionStretchShrinkName : String := "section_stretch_shrink"

/-- The `split` remainder policy name "total_shrink". -/
def totalShrinkName : String := "total_shrink"

/-- The `split` remainder policy name "total_grow". -/
def totalGrowName : String := "total_grow"

/-- The `split` remainder policy name "total_shrink_grow". -/
def totalShrinkGrowName : String := "total_shrink_grow"

/-- A policy name not among the seven recognized ones. -/
def unknownPolicyName : String := "bogus"

/-- Effective section size in `split`'s by-size mode (range.py lines
273-276): the given size, else `self.step`. -/
def splitEffSectionSize (r : RangeQ) (sectionSize : Option ℚ) : ℚ :=
  match sectionSize with
  | none => stepVal r
  | some s => s

/-- Intermediate `totalSize` in `split` (range.py lines 277-279): the span, less both
end sections when `endSizes` is given. -/
def splitTotalSize (r : RangeQ) (endSizes : Option ℚ) : ℚ :=
  match endSizes with
  | none => span r
  | some e => span r - e * 2

/-- Intermediate `numSectionsExact` in `split`'s by-size mode (range.py lines
280-285). -/
def splitNumSectionsExact (r : RangeQ)
    (sectionSize endSizes separatorSizes : Option ℚ) : ℚ :=
  match separatorSizes with
  | some sep =>
    (splitTotalSize r endSizes + sep) / (splitEffSectionSize r sectionSize + sep)
  | none => splitTotalSize r endSizes / splitEffSectionSize r sectionSize

/-- The by-size `remainder` (range.py lines 286-288):
`sectionSize * (numSectionsExact - floor(numSectionsExact))`. -/
def splitRemainder (r : RangeQ)
    (sectionSize endSizes separatorSizes : Option ℚ) : ℚ :=
  splitEffSectionSize r sectionSize *
    (splitNumSectionsExact r sectionSize endSizes separatorSizes
      - (⌊splitNumSectionsExact r sectionSize endSizes separatorSizes⌋ : ℚ))

/-- The sizing data `split` settles on before emitting pieces:
the (possibly adjusted) section size and count, and the optional trailing
remainder section. -/
structure SplitSizing where
  sectionSize : ℚ
  numSections : ℤ
  remainderSection : Option ℚ
deriving DecidableEq

/-- The remainder-handling dispatch of `split`'s by-size mode (range.py
lines 286-332): when the remainder is nonzero the seven named policies
adjust the sizing and an unrecognized name raises
`NotImplementedError("Unknown remainder handling mode ...")`; when the
remainder is zero the policy name is never consulted. -/
def splitResolve (r : RangeQ) (sectionSize endSizes separatorSizes : Option ℚ)
    (remainderHandling : String) : Except PyErr SplitSizing :=
  let s := splitEffSectionSize r sectionSize
  let t := splitTotalSize r endSizes
  let n : ℤ := ⌊splitNumSectionsExact r sectionSize endSizes separatorSizes⌋
  let rem := splitRemainder r sectionSize endSizes separatorSizes
  if rem ≠ 0 then
    if remainderHandling = remainderSectionName then
      Except.ok ⟨s, n, some rem⟩
    else if remainderHandling = sectionStretchName then
      Except.ok ⟨s + rem / (n : ℚ), n, none⟩
    else if remainderHandling = sectionShrinkName then
      match separatorSizes with
      | some sep => Except.ok ⟨(t + sep) / ((n + 1 : ℤ) : ℚ) - sep, n + 1, none⟩
      | none => Except.ok ⟨t / ((n + 1 : ℤ) : ℚ), n + 1, none⟩
    else if remainderHandling = sectionStretchShrinkName then
      if rem / s ≥ 1 / 2 then
        match separatorSizes with
        | some sep => Except.ok ⟨(t + sep) / ((n + 1 : ℤ) : ℚ) - sep, n + 1, none⟩
        | none => Except.ok ⟨t / ((n + 1 : ℤ) : ℚ), n + 1, none⟩
      else Except.ok ⟨s + rem / (n : ℚ), n, none⟩
    else if remainderHandling = totalShrinkName then
      Except.ok ⟨s, n, none⟩
    else if remainderHandling = totalGrowName then
      Except.ok ⟨s, n + 1, none⟩
    else if remainderHandling = totalShrinkGrowName then
      if rem / s ≥ 1 / 2 then Except.ok ⟨s, n + 1, none⟩
      else Except.ok ⟨s, n, none⟩
    else Except.error PyErr.notImplementedError
  else Except.ok ⟨s, n, none⟩

/-- The `for _ in range(numSections)` emission loop of `split` (range.py
lines 340-349): each pass optionally yields the section
`Range(pos, pos+sectionSize)`, advances `pos`, and optionally yields and
advances past a separator.  Returns the emitted pieces and final `pos`. -/
def splitEmitSections (sectionSize : ℚ) (separatorSizes : Option ℚ)
    (yieldSections yieldSeparators : Bool) : ℚ → ℕ → List RangeQ × ℚ
  | pos, 0 => ([], pos)
  | pos, n + 1 =>
    let secOut := if yieldSections then [mkRangeD pos (pos + sectionSize)] else []
    let pos2 := pos + sectionSize
    let sepOut := match separatorSizes with
      | some sep => if yieldSeparators then [mkRangeD pos2 (pos2 + sep)] else []
      | none => []
    let pos3 := match separatorSizes with
      | some sep => pos2 + sep
      | none => pos2
    let rest := splitEmitSections sectionSize separatorSizes
      yieldSections yieldSeparators pos3 n
    (secOut ++ sepOut ++ rest.1, rest.2)

/-- Method `Range.split` in its by-size mode (`numSections is None`; range.py
lines 269-359): resolve the sizing (possibly failing on an unknown
remainder policy), then walk from `self.min`, emitting the leading end
section, the sections with separators, the remainder section, and the
trailing end section. -/
def splitBySize (r : RangeQ) (sectionSize endSizes separatorSizes : Option ℚ)
    (remainderHandling : String)
    (yieldEnds yieldSections yieldSeparators : Bool) :
    Except PyErr (List RangeQ) :=
  match splitResolve r sectionSize endSizes separatorSizes remainderHandling with
  | Except.error e => Except.error e
  | Except.ok sz =>
    let pos0 := r.low
    let endOut1 := match endSizes with
      | some e => if yieldEnds then [mkRangeD pos0 (pos0 + e)] else []
      | none => []
    let pos1 := match endSizes with
      | some e => pos0 + e
      | none => pos0
    let secs := splitEmitSections sz.sectionSize separatorSizes
      yieldSections yieldSeparators pos1 sz.numSections.toNat
    let pos2 := secs.2
    let remOut := match sz.remainderSection with
      | some rsec => if yieldSections then [mkRangeD pos2 (pos2 + rsec)] else []
      | none => []
    let pos3 := match sz.remainderSection with
      | some rsec => pos2 + rsec
      | none => pos2
    let endOut2 := match endSizes with
      | some e => if yieldEnds then [mkRangeD pos3 (pos3 + e)] else []
      | none => []
    Except.ok (endOut1 ++ secs.1 ++ remOut ++ endOut2)

/-- C6, counterexample: `Range(0,10).split(sectionSize=5)` with the
unknown policy name "bogus" does NOT fail — the span divides evenly, so
the remainder is zero, the policy name is never inspected, and the split
succeeds with sections `[0,5],[5,10]`.  The error is therefore not
unconditional. -/
theorem split_unknown_policy_ignored_when_exact :
    splitBySize (mkRangeD 0 10) (some 5) none none unknownPolicyName
        true true true
      = Except.ok [mkRangeD 0 5, mkRangeD 5 10] := by
  norm_num [splitBySize, splitResolve, splitRemainder, splitNumSectionsExact,
    splitTotalSize, splitEffSectionSize, span, mkRangeD, mkRange, setHigh,
    splitEmitSections]

/-- C6, amended: in by-size mode an unrecognized remainder-handling name
makes `split` fail (with `NotImplementedError`, the spec's
ConfigurationError) exactly when the computed remainder is nonzero; when
the section size divides the adjusted span evenly the unknown name is
silently ignored and the split succeeds. -/
theorem split_unknown_policy_error_iff_remainder (r : RangeQ)
    (sectionSize endSizes separatorSizes : Option ℚ) (p : String)
    (yE yS ySep : Bool)
    (hp : p ∉ [remainderSectionName, sectionStretchName, sectionShrinkName,
      sectionStretchShrinkName, totalShrinkName, totalGrowName,
      totalShrinkGrowName]) :
    (splitRemainder r sectionSize endSizes separatorSizes ≠ 0 →
      splitBySize r sectionSize endSizes separatorSizes p yE yS ySep
        = Except.error PyErr.notImplementedError)
    ∧ (splitRemainder r sectionSize endSizes separatorSizes = 0 →
      ∃ out, splitBySize r sectionSize endSizes separatorSizes p yE yS ySep
        = Except.ok out) := by
  simp only [List.mem_cons, List.not_mem_nil, or_false, not_or] at hp
  obtain ⟨h1, h2, h3, h4, h5, h6, h7⟩ := hp
  constructor
  · intro hrem
    have hres : splitResolve r sectionSize endSizes separatorSizes p
        = Except.error PyErr.notImplementedError := by
      simp only [splitResolve, ne_eq, hrem, not_false_eq_true, if_true,
        h1, h2, h3, h4, h5, h6, h7, if_false]
    simp only [splitBySize, hres]
  · intro hrem
    have hres : splitResolve r sectionSize endSizes separatorSizes p
        = Except.ok ⟨splitEffSectionSize r sectionSize,
            ⌊splitNumSectionsExact r sectionSize endSizes separatorSizes⌋,
            none⟩ := by
      simp only [splitResolve, ne_eq, hrem, not_true_eq_false, if_false]
    simp only [splitBySize, hres]
    exact ⟨_, rfl⟩

/-- Witness for C6's amended theorem: `Range(0,10).split(sectionSize=3)`
with policy "bogus" has remainder 1 ≠ 0 and fails, while the same call
with `sectionSize=5` has remainder 0 and succeeds. -/
theorem split_unknown_policy_error_iff_remainder_witness :
    splitBySize (mkRangeD 0 10) (some 3) none none unknownPolicyName
        true true true
      = Except.error PyErr.notImplementedError
    ∧ ∃ out, splitBySize (mkRangeD 0 10) (some 5) none none unknownPolicyName
        true true true
      = Except.ok out := by
  constructor
  · exact (split_unknown_policy_error_iff_remainder (mkRangeD 0 10) (some 3)
      none none unknownPolicyName true true true (by decide)).1
      (by norm_num [splitRemainder, splitNumSectionsExact, splitTotalSize,
        splitEffSectionSize, span, mkRangeD, mkRange, setHigh])
  · exact (split_unknown_policy_error_iff_remainder (mkRangeD 0 10) (some 5)
      none none unknownPolicyName true true true (by decide)).2
      (by norm_num [splitRemainder, splitNumSectionsExact, splitTotalSize,
        splitEffSectionSize, span, mkRangeD, mkRange, setHigh])

/-- Embedding of the `Ranges` collection state: the `_ranges` list. -/
structure RangesQ where
  ranges : List RangeQ
deriving DecidableEq

/-- Method `Ranges.append(ranges)` (ranges.py lines 22-35): the body iterates
over the given ranges and raises `NotImplementedError` on the very first
element, so any non-empty insertion fails (an empty iterable is a
no-op). -/
def RangesQ.append (rs : RangesQ) (items : List RangeQ) :
    Except PyErr RangesQ :=
  match items with
  | [] => Except.ok rs
  | _ :: _ => Except.error PyErr.notImplementedError

/-- The accumulator loop of the `Ranges.minimum` property (ranges.py
lines 42-45): `if acc is None or r.minimum < acc: acc = r.minimum`. -/
def minimumAcc : List RangeQ → Option ℚ → Option ℚ
  | [], acc => acc
  | r :: rest, acc =>
    minimumAcc rest
      (match acc with
       | none => some r.low
       | some a => if r.low < a then some r.low else some a)

/-- Property `Ranges.minimum` (ranges.py lines 37-48): fold the accumulator over
the members and raise `IndexError("Range has no members")` when it never
got set. -/
def RangesQ.minimum (rs : RangesQ) : Except PyErr ℚ :=
  match minimumAcc rs.ranges none with
  | none => Except.error PyErr.indexError
  | some v => Except.ok v

/-- The accumulator loop of the `Ranges.maximum` property (ranges.py
lines 55-58): `if acc is None or r.maximum > acc: acc = r.maximum`. -/
def maximumAcc : List RangeQ → Option ℚ → Option ℚ
  | [], acc => acc
  | r :: rest, acc =>
    maximumAcc rest
      (match acc with
       | none => some r.high
       | some a => if r.high > a then some r.high else some a)

/-- Property `Ranges.maximum` (ranges.py lines 50-61): fold the accumulator over
the members and raise `IndexError("Range has no members")` when it never
got set. -/
def RangesQ.maximum (rs : RangesQ) : Except PyErr ℚ :=
  match maximumAcc rs.ranges none with
  | none => Except.error PyErr.indexError
  | some v => Except.ok v

/-- Method `Ranges.getRange(item)` on a scalar item (ranges.py lines 70-80):
the first member containing the item, else `None`. -/
def RangesQ.getRange (rs : RangesQ) (item : ℚ) : Option RangeQ :=
  rs.ranges.find? (fun r => containsScalar r item)

/-- The nearest-edge scan of `Ranges.getNearestRange` (ranges.py lines
95-102): seed `bestVal = 0.0`, take a range when `ret` is unset or its
edge distance improves on the best. -/
def nearestLoop (item : ℚ) : List RangeQ → Option RangeQ → ℚ → Option RangeQ
  | [], ret, _ => ret
  | sr :: rest, ret, bestVal =>
    let val := min |sr.low - item| |sr.high - item|
    match ret with
    | none => nearestLoop item rest (some sr) val
    | some r0 =>
      if val < bestVal then nearestLoop item rest (some sr) val
      else nearestLoop item rest (some r0) bestVal

/-- Method `Ranges.getNearestRange(item)` (ranges.py lines 82-103): raise
`IndexError('There are no ranges')` on an empty collection, else the
containing member if any, else the scan result (always set for a
non-empty list; the impossible unset case is mapped to the same error). -/
def RangesQ.getNearestRange (rs : RangesQ) (item : ℚ) : Except PyErr RangeQ :=
  match rs.ranges with
  | [] => Except.error PyErr.indexError
  | _ :: _ =>
    match rs.getRange item with
    | some r => Except.ok r
    | none =>
      match nearestLoop item rs.ranges none 0 with
      | some r => Except.ok r
      | none => Except.error PyErr.indexError

/-- C8, code evaluation at the failing input: inserting
`[Range(5,9), Range(3,5), Range(1,2)]` into an empty `Ranges` raises
`NotImplementedError` instead of producing the merged disjoint set
`[Range(1,2), Range(3,9)]` promised by the method's own docstring —
the merge loop body is unimplemented. -/
theorem append_raises_notImplemented :
    RangesQ.append ⟨[]⟩ [mkRangeD 5 9, mkRangeD 3 5, mkRangeD 1 2]
      = Except.error PyErr.notImplementedError := by
  rfl

/-- C9: on a `Ranges` collection with no members, `minimum`, `maximum`
and `getNearestRange` all raise (`IndexError`, the spec's
EmptyCollectionError) — no query returns a default value. -/
theorem empty_collection_queries_error (rs : RangesQ) (x : ℚ)
    (h : rs.ranges = []) :
    rs.minimum = Except.error PyErr.indexError
    ∧ rs.maximum = Except.error PyErr.indexError
    ∧ rs.getNearestRange x = Except.error PyErr.indexError := by
  refine ⟨?_, ?_, ?_⟩
  · simp only [RangesQ.minimum, h, minimumAcc]
  · simp only [RangesQ.maximum, h, maximumAcc]
  · simp only [RangesQ.getNearestRange, h]

/-- Witness for C9 on the literal empty collection at query point 0. -/
theorem empty_collection_queries_error_witness :
    RangesQ.minimum ⟨[]⟩ = Except.error PyErr.indexError
    ∧ RangesQ.maximum ⟨[]⟩ = Except.error PyErr.indexError
    ∧ RangesQ.getNearestRange ⟨[]⟩ 0 = Except.error PyErr.indexError := by
  exact empty_collection_queries_error ⟨[]⟩ 0 rfl

end RangeTools
